import Mathlib

/-
Verification development for the motherduck-supasync sync engine.
The Rust sources under src/ are shallowly embedded below: pure helpers
become Lean functions on lists of characters; the effectful database
clients are modelled as explicit oracles (an Env structure) and the
orchestrator is a deterministic function of that environment which also
returns a trace of the operations it performed (progress callback
invocations, committed write chunks, checkpoint calls).
-/

namespace MdSync

/-- The double-quote character (written via its code point). -/
def dq : Char := Char.ofNat 34

/-- The single-quote character used for SQL string literals. -/
def sq : Char := Char.ofNat 39

/-- The backslash character. -/
def bsl : Char := Char.ofNat 92

/-- Opening curly brace character. -/
def lcurl : Char := Char.ofNat 123

/-- Closing curly brace character. -/
def rcurl : Char := Char.ofNat 125

/-- Fuel-indexed worker for `chunksOf`; structural recursion on the fuel so
that concrete instances evaluate in the kernel.  With fuel at least the
length of the list and a positive chunk size it computes the chunk
decomposition of Rust `slice::chunks`. -/
def chunksGo (b : Nat) : Nat → List α → List (List α)
  | _, [] => []
  | 0, l => [l]
  | fuel + 1, x :: xs => (x :: xs.take (b - 1)) :: chunksGo b fuel (xs.drop (b - 1))

/-- Embedding of Rust `slice::chunks(b)` as used by `batch_upsert`
(src/motherduck.rs line 243): splits a list into consecutive chunks of
size `b`, the last one possibly smaller.  Rust panics when `b = 0`; the
configuration validator enforces `batch_size` between 1 and 100000, and
every claim below carries `0 < b`. -/
def chunksOf (b : Nat) (l : List α) : List (List α) :=
  chunksGo b l.length l

/-- Embedding of serde_json `Value`.  A number is carried together with its
textual rendering (the output of `Number::to_string`), which is the only
aspect of numbers the embedded code consumes. -/
inductive Json where
  | null : Json
  | bool (b : Bool) : Json
  | num (repr : String) : Json
  | str (s : String) : Json
  | arr (elems : List Json) : Json
  | obj (members : List (String × Json)) : Json

/-- Lowercase hexadecimal digit, as serde_json uses when escaping control
characters. -/
def hexDigit (n : Nat) : Char :=
  if n < 10 then Char.ofNat (48 + n) else Char.ofNat (87 + n)

/-- JSON string escaping of one character (serde_json compact form):
quote and backslash are escaped, control characters use the short escapes
or a unicode escape. -/
def escJsonChar (c : Char) : List Char :=
  if c = dq then [bsl, dq]
  else if c = bsl then [bsl, bsl]
  else if c = Char.ofNat 8 then [bsl, 'b']
  else if c = Char.ofNat 9 then [bsl, 't']
  else if c = Char.ofNat 10 then [bsl, 'n']
  else if c = Char.ofNat 12 then [bsl, 'f']
  else if c = Char.ofNat 13 then [bsl, 'r']
  else if c.toNat < 32 then [bsl, 'u', '0', '0', hexDigit (c.toNat / 16), hexDigit (c.toNat % 16)]
  else [c]

/-- Render a JSON string literal with its surrounding double quotes. -/
def renderJsonString (s : List Char) : List Char :=
  dq :: (s.flatMap escJsonChar) ++ [dq]

mutual

/-- Compact serialization of a JSON value, the embedding of
`serde_json::Value::to_string()` (the `Display` of `Value`). -/
def Json.render : Json → List Char
  | .null => "null".data
  | .bool true => "true".data
  | .bool false => "false".data
  | .num n => n.data
  | .str s => renderJsonString s.data
  | .arr xs => '[' :: List.intercalate [','] (Json.renderElems xs) ++ [']']
  | .obj kvs => lcurl :: List.intercalate [','] (Json.renderMembers kvs) ++ [rcurl]

/-- Serialize the elements of a JSON array. -/
def Json.renderElems : List Json → List (List Char)
  | [] => []
  | x :: xs => Json.render x :: Json.renderElems xs

/-- Serialize the members of a JSON object. -/
def Json.renderMembers : List (String × Json) → List (List Char)
  | [] => []
  | kv :: xs => (renderJsonString kv.1.data ++ ':' :: Json.render kv.2) :: Json.renderMembers xs

end

/-- Embedding of Rust `str::replace(single quote, two single quotes)`:
doubles every single quote (src/motherduck.rs lines 341 and 346). -/
def escSqlQuote : List Char → List Char
  | [] => []
  | c :: cs => if c = sq then sq :: sq :: escSqlQuote cs else c :: escSqlQuote cs

/-- Embedding of `json_to_sql_literal` (src/motherduck.rs lines 334-350):
null, boolean and number render bare; strings and structured values are
single-quoted with embedded single quotes doubled. -/
def json_to_sql_literal : Json → List Char
  | .null => "NULL".data
  | .bool b => if b then "TRUE".data else "FALSE".data
  | .num n => n.data
  | .str s => sq :: escSqlQuote s.data ++ [sq]
  | .arr xs => sq :: escSqlQuote (Json.render (.arr xs)) ++ [sq]
  | .obj kvs => sq :: escSqlQuote (Json.render (.obj kvs)) ++ [sq]

/-- Modelled from the spec: collapse each doubled single quote to one, the
unescaping direction of the round-trip sentence of the spec (the source
has no unescape function; the target engine performs it). -/
def collapseQuotes : List Char → List Char
  | [] => []
  | [c] => [c]
  | c :: d :: cs =>
    if c = sq ∧ d = sq then sq :: collapseQuotes cs else c :: collapseQuotes (d :: cs)

/-- Modelled from the spec: unescape a produced SQL literal by stripping
the outer quotes and collapsing each doubled quote. -/
def unescapeSqlLiteral (l : List Char) : List Char :=
  collapseQuotes ((l.drop 1).dropLast)

/-- Strip leading double quotes, helper for `trim_matches`. -/
def trimLeadDq : List Char → List Char
  | [] => []
  | c :: cs => if c = dq then trimLeadDq cs else c :: cs

/-- Embedding of Rust `str::trim_matches(double quote)`: removes every
leading and trailing double-quote character. -/
def trimMatchesDq (s : List Char) : List Char :=
  ((trimLeadDq ((trimLeadDq s).reverse)).reverse)

/-- Embedding of the checkpoint-id coercion in `sync_table`
(src/sync.rs lines 380-383): a JSON string yields its content, any other
value yields its serialization with surrounding double quotes trimmed. -/
def jsonIdText : Json → String
  | .str s => s
  | .null => String.mk (trimMatchesDq (Json.render .null))
  | .bool b => String.mk (trimMatchesDq (Json.render (.bool b)))
  | .num n => String.mk (trimMatchesDq (Json.render (.num n)))
  | .arr xs => String.mk (trimMatchesDq (Json.render (.arr xs)))
  | .obj kvs => String.mk (trimMatchesDq (Json.render (.obj kvs)))

/-- Embedding of `ColumnType` (src/schema.rs lines 182-223). -/
inductive ColumnType where
  | boolean : ColumnType
  | smallInt : ColumnType
  | integer : ColumnType
  | bigInt : ColumnType
  | real : ColumnType
  | double : ColumnType
  | decimal (precision : Nat) (scale : Nat) : ColumnType
  | varchar (max_length : Option Nat) : ColumnType
  | text : ColumnType
  | date : ColumnType
  | time : ColumnType
  | timestamp : ColumnType
  | timestampTz : ColumnType
  | uuid : ColumnType
  | json : ColumnType
  | blob : ColumnType
deriving DecidableEq

/-- Embedding of `ColumnType::to_duckdb` (src/schema.rs lines 227-246). -/
def ColumnType.to_duckdb : ColumnType → String
  | .boolean => "BOOLEAN"
  | .smallInt => "SMALLINT"
  | .integer => "INTEGER"
  | .bigInt => "BIGINT"
  | .real => "REAL"
  | .double => "DOUBLE"
  | .decimal _ _ => "DECIMAL"
  | .varchar _ => "VARCHAR"
  | .text => "VARCHAR"
  | .date => "DATE"
  | .time => "TIME"
  | .timestamp => "TIMESTAMP"
  | .timestampTz => "TIMESTAMPTZ"
  | .uuid => "VARCHAR"
  | .json => "JSON"
  | .blob => "BLOB"

/-- ASCII lowercase of a character list, the embedding of Rust
`str::to_lowercase` on the ASCII type names this code receives. -/
def toLowerL (s : List Char) : List Char :=
  s.map Char.toLower

/-- Embedding of Rust `str::starts_with` on character lists. -/
def startsWithL : List Char → List Char → Bool
  | [], _ => true
  | _ :: _, [] => false
  | p :: ps, c :: cs => p = c && startsWithL ps cs

/-- Embedding of `ColumnType::from_postgres` (src/schema.rs lines 249-275):
lowercase the PostgreSQL type name, match the known names, treat the
`varchar` and `numeric` families by prefix, and fall back to `text`. -/
def ColumnType.from_postgres (pg_type : String) : ColumnType :=
  let normalized := toLowerL pg_type.data
  if normalized = "boolean".data ∨ normalized = "bool".data then .boolean
  else if normalized = "smallint".data ∨ normalized = "int2".data then .smallInt
  else if normalized = "integer".data ∨ normalized = "int".data ∨ normalized = "int4".data then .integer
  else if normalized = "bigint".data ∨ normalized = "int8".data then .bigInt
  else if normalized = "real".data ∨ normalized = "float4".data then .real
  else if normalized = "double precision".data ∨ normalized = "float8".data then .double
  else if normalized = "date".data then .date
  else if normalized = "time".data ∨ normalized = "time without time zone".data then .time
  else if normalized = "timestamp".data ∨ normalized = "timestamp without time zone".data then .timestamp
  else if normalized = "timestamp with time zone".data ∨ normalized = "timestamptz".data then .timestampTz
  else if normalized = "uuid".data then .uuid
  else if normalized = "json".data ∨ normalized = "jsonb".data then .json
  else if normalized = "bytea".data then .blob
  else if normalized = "text".data then .text
  else if startsWithL "character varying".data normalized || startsWithL "varchar".data normalized then
    .varchar none
  else if startsWithL "numeric".data normalized || startsWithL "decimal".data normalized then
    .decimal 38 9
  else .text

/-- Wrap a string in single quotes, as the error format strings do around
table names. -/
def squoted (t : String) : String :=
  String.mk (sq :: t.data ++ [sq])

/-- Embedding of `Error` (src/error.rs).  Boxed driver source errors are
carried as plain message strings; the `last_error` of `RetryExhausted`
and the payload of `Io` are likewise flattened to messages. -/
inductive Error where
  | Config (message : String) : Error
  | PostgresConnection (message : String) : Error
  | PostgresQuery (table : String) (message : String) : Error
  | MotherDuckConnection (message : String) : Error
  | MotherDuckQuery (table : String) (message : String) : Error
  | Schema (message : String) : Error
  | Validation (message : String) : Error
  | Serialization (message : String) : Error
  | Sync (message : String) (records_synced : Nat) : Error
  | RetryExhausted (attempts : Nat) (message : String) : Error
  | Cancelled : Error
  | Io (message : String) : Error
deriving DecidableEq

/-- Embedding of the thiserror `Display` of `Error` (the `#[error]`
format strings of src/error.rs), used where the code calls
`e.to_string()`. -/
def Error.render : Error → String
  | .Config m => "Configuration error: " ++ m
  | .PostgresConnection m => "PostgreSQL connection error: " ++ m
  | .PostgresQuery t m => "PostgreSQL query error on table " ++ squoted t ++ ": " ++ m
  | .MotherDuckConnection m => "MotherDuck connection error: " ++ m
  | .MotherDuckQuery t m => "MotherDuck query error on table " ++ squoted t ++ ": " ++ m
  | .Schema m => "Schema error: " ++ m
  | .Validation m => "Validation error: " ++ m
  | .Serialization m => "Serialization error: " ++ m
  | .Sync m _ => "Sync error: " ++ m
  | .RetryExhausted a m => "Operation failed after " ++ toString a ++ " attempts: " ++ m
  | .Cancelled => "Operation cancelled"
  | .Io m => "IO error: " ++ m

/-- Embedding of `Error::code` (src/error.rs lines 221-236). -/
def Error.code : Error → String
  | .Config _ => "CONFIG_ERROR"
  | .PostgresConnection _ => "PG_CONNECTION_ERROR"
  | .PostgresQuery _ _ => "PG_QUERY_ERROR"
  | .MotherDuckConnection _ => "MD_CONNECTION_ERROR"
  | .MotherDuckQuery _ _ => "MD_QUERY_ERROR"
  | .Schema _ => "SCHEMA_ERROR"
  | .Validation _ => "VALIDATION_ERROR"
  | .Serialization _ => "SERIALIZATION_ERROR"
  | .Sync _ _ => "SYNC_ERROR"
  | .RetryExhausted _ _ => "RETRY_EXHAUSTED"
  | .Cancelled => "CANCELLED"
  | .Io _ => "IO_ERROR"

/-- Embedding of `SyncMode` (src/sync.rs lines 17-23). -/
inductive SyncMode where
  | Incremental : SyncMode
  | Full : SyncMode
deriving DecidableEq

/-- Embedding of the `Display` of `SyncMode` (src/sync.rs lines 25-32). -/
def SyncMode.render : SyncMode → String
  | .Incremental => "incremental"
  | .Full => "full"

/-- The comparison `mode == SyncMode::Full` at src/sync.rs line 186. -/
def SyncMode.isFull : SyncMode → Bool
  | .Full => true
  | .Incremental => false

/-- Embedding of `SyncPhase` (src/sync.rs lines 107-120). -/
inductive SyncPhase where
  | Connecting : SyncPhase
  | Fetching : SyncPhase
  | Inserting : SyncPhase
  | Marking : SyncPhase
  | Completed : SyncPhase
  | Failed : SyncPhase
deriving DecidableEq

/-- Embedding of `TableMapping` (src/config.rs lines 203-239). -/
structure TableMapping where
  source_table : String
  target_table : String
  primary_key : List String
  sync_flag_column : String
  columns : List String
  column_mappings : List (String × String)
  filter : Option String
  order_by : Option String
  enabled : Bool

/-- Embedding of `SyncBehaviorConfig` (src/config.rs lines 161-186). -/
structure SyncBehaviorConfig where
  batch_size : Nat
  use_transactions : Bool
  mark_synced : Bool
  sync_flag_column : String
  auto_create_tables : Bool
  max_records : Nat

/-- Embedding of `SyncConfig` restricted to the fields the sync engine
control flow reads (src/config.rs lines 12-35); the connection, retry and
logging sections configure the external adapters and are absorbed into
the environment oracles. -/
structure SyncConfig where
  sync : SyncBehaviorConfig
  tables : List TableMapping

/-- Embedding of `IntrospectedColumn` (src/schema.rs lines 326-337). -/
structure IntrospectedColumn where
  name : String
  pg_type : String
  nullable : Bool
  default : Option String
  is_primary_key : Bool

/-- A fetched row: the embedding of `HashMap<String, JsonValue>`, as an
association list with at most one entry per key (inserts replace). -/
abbrev Row := List (String × Json)

/-- A raw row of simple-query mode: column name paired with the optional
text of the value (`None` represents SQL NULL). -/
abbrev SimpleRow := List (String × Option String)

/-- Key lookup in a row, the embedding of `HashMap::get`. -/
def rowGet (r : Row) (k : String) : Option Json :=
  (r.find? (fun p => p.1 = k)).map (fun p => p.2)

/-- Insert with replacement, the embedding of `HashMap::insert`. -/
def mapInsert (m : Row) (k : String) (v : Json) : Row :=
  if m.any (fun p => p.1 = k) then
    m.map (fun p => if p.1 = k then (k, v) else p)
  else m ++ [(k, v)]

/-- Embedding of `simple_row_to_json` (src/postgres.rs lines 293-317):
skip the sync-flag column; every other value becomes a JSON string, or
JSON null when the database returned NULL. -/
def simple_row_to_json (row : SimpleRow) (skip_column : String) : Row :=
  row.foldl
    (fun m p =>
      if p.1 = skip_column then m
      else mapInsert m p.1 (match p.2 with | some s => Json.str s | none => Json.null))
    []

/-- Query text built by `fetch_rows` (src/postgres.rs lines 92-119). -/
def buildFetchQuery (m : TableMapping) (full_sync : Bool) (limit : Option Nat) : String :=
  let conditions :=
    (if full_sync then [] else ["NOT " ++ m.sync_flag_column]) ++
    (match m.filter with | some f => [f] | none => [])
  let whereClause :=
    if conditions.isEmpty then "" else " WHERE " ++ String.intercalate " AND " conditions
  let orderClause := match m.order_by with | some o => " ORDER BY " ++ o | none => ""
  let limitClause := match limit with | some l => " LIMIT " ++ toString l | none => ""
  "SELECT * FROM " ++ m.source_table ++ whereClause ++ orderClause ++ limitClause

/-- The statement of a chunk write: `batch_upsert` runs BEGIN, the bulk
INSERT of `upsert_rows`, then COMMIT for each chunk. -/
inductive ChunkStep where
  | begin : ChunkStep
  | insert : ChunkStep
  | commit : ChunkStep
deriving DecidableEq

/-- Deterministic oracles standing for the two database connections.  A
`none` outcome means the statement succeeded; `some msg` is the driver
error message.  The orchestrator below is a pure function of these
oracles. -/
structure Env where
  /-- MotherDuck `table_exists` (src/motherduck.rs lines 283-299). -/
  tableExists : String → Except String Bool
  /-- PostgreSQL `introspect_table` (src/postgres.rs lines 172-210). -/
  introspect : String → Except String (List IntrospectedColumn)
  /-- Modelled from the spec: `create_table_from_schema`, called at
  src/sync.rs line 304 but absent from src/ — per §4.1 it emits a
  CREATE TABLE IF NOT EXISTS statement and can fail with a target-store
  query error. -/
  createTable : String → Except String Unit
  /-- PostgreSQL `simple_query` keyed by the SQL text
  (src/postgres.rs line 123). -/
  simpleQuery : String → Except String (List SimpleRow)
  /-- MotherDuck statement execution for the write path, addressed by
  target table, chunk index and statement within the chunk
  (src/motherduck.rs lines 243-260). -/
  mdExec : String → Nat → ChunkStep → Option String
  /-- PostgreSQL execution of the mark-synced UPDATE, addressed by source
  table and id list (src/postgres.rs lines 145-169). -/
  markExec : String → List String → Except String Nat
  /-- MotherDuck `ensure_schema` (src/motherduck.rs lines 57-65). -/
  ensureSchema : Except String Unit
  /-- MotherDuck `create_analytics_tables` (src/motherduck.rs 82-174). -/
  createAnalytics : Except String Unit

/-- Embedding of `fetch_rows` (src/postgres.rs lines 86-141): build the
query, run it in simple-query mode, convert each row with
`simple_row_to_json`. -/
def fetch_rows (env : Env) (m : TableMapping) (full_sync : Bool) (limit : Option Nat) :
    Except Error (List Row) :=
  match env.simpleQuery (buildFetchQuery m full_sync limit) with
  | .error e => .error (.PostgresQuery m.source_table ("Fetch failed: " ++ e))
  | .ok msgs => .ok (msgs.map (fun r => simple_row_to_json r m.sync_flag_column))

/-- Embedding of `mark_synced` (src/postgres.rs lines 145-169): no-op on
an empty id list, otherwise one UPDATE execution. -/
def mark_synced (env : Env) (m : TableMapping) (ids : List String) : Except Error Nat :=
  if ids.isEmpty then .ok 0
  else
    match env.markExec m.source_table ids with
    | .error _ => .error (.PostgresQuery m.source_table "Mark synced failed")
    | .ok n => .ok n

/-- One chunk of the `batch_upsert` loop body (src/motherduck.rs lines
243-260): BEGIN, the bulk insert of `upsert_rows`, COMMIT; on an insert
failure the transaction is rolled back (the rollback result is
discarded by the source). -/
def runChunk (env : Env) (target : String) (i : Nat) : Option Error :=
  match env.mdExec target i .begin with
  | some _ => some (.MotherDuckQuery target "Begin transaction failed")
  | none =>
    match env.mdExec target i .insert with
    | some _ => some (.MotherDuckQuery target "Bulk insert failed")
    | none =>
      match env.mdExec target i .commit with
      | some _ => some (.MotherDuckQuery target "Commit failed")
      | none => none

/-- Worker for `batch_upsert`: walks the chunks accumulating the total of
written rows; returns the result together with the list of chunks that
were committed before stopping. -/
def batchUpsertGo (env : Env) (target : String) :
    Nat → Nat → List (List Row) → Except Error Nat × List (List Row)
  | _, total, [] => (.ok total, [])
  | i, total, c :: rest =>
    match runChunk env target i with
    | some e => (.error e, [])
    | none =>
      let r := batchUpsertGo env target (i + 1) (total + c.length) rest
      (r.1, c :: r.2)

/-- Embedding of `batch_upsert` (src/motherduck.rs lines 230-265): empty
input writes nothing; otherwise the rows are chunked by `batch_size` and
each chunk is written in its own transaction. -/
def batch_upsert (env : Env) (m : TableMapping) (rows : List Row) (batch_size : Nat) :
    Except Error Nat × List (List Row) :=
  if rows.isEmpty then (.ok 0, [])
  else batchUpsertGo env m.target_table 0 0 (chunksOf batch_size rows)

/-- Embedding of the non-transactional `upsert_rows` call from
`sync_table` (src/motherduck.rs lines 178-226): a single bulk INSERT of
all rows, reported through the chunk-0 insert oracle. -/
def upsert_rows_once (env : Env) (m : TableMapping) (rows : List Row) :
    Except Error Nat × List (List Row) :=
  if rows.isEmpty then (.ok 0, [])
  else
    match env.mdExec m.target_table 0 .insert with
    | some _ => (.error (.MotherDuckQuery m.target_table "Bulk insert failed"), [])
    | none => (.ok rows.length, [rows])

/-- Embedding of the checkpoint-id derivation in `sync_table`
(src/sync.rs lines 376-384): for each fetched row, look up the first
primary-key column; rows without it are dropped, the rest are coerced to
text. -/
def checkpointIds (m : TableMapping) (rows : List Row) : List String :=
  rows.filterMap (fun r => (rowGet r m.primary_key.headI).map jsonIdText)

/-- Trace of one `sync_table` run: the progress phases reported, the rows
fetched (when the fetch succeeded), the result of the write step, the
chunks committed to the target, and the id lists passed to the
checkpoint call. -/
structure TableTrace where
  phases : List SyncPhase
  fetched : Option (List Row)
  written : Option Nat
  committedChunks : List (List Row)
  markCalls : List (List String)

/-- The row limit derived from configuration in `sync_table`
(src/sync.rs lines 332-336): zero `max_records` means no limit. -/
def fetchLimit (cfg : SyncBehaviorConfig) : Option Nat :=
  if cfg.max_records > 0 then some cfg.max_records else none

/-- The write step of `sync_table` (src/sync.rs lines 357-362):
transactional mode goes through `batch_upsert`, otherwise one plain
`upsert_rows` call. -/
def writeStep (env : Env) (cfg : SyncBehaviorConfig) (m : TableMapping) (rows : List Row) :
    Except Error Nat × List (List Row) :=
  if cfg.use_transactions then batch_upsert env m rows cfg.batch_size
  else upsert_rows_once env m rows

/-- Embedding of `SyncClient::sync_table` (src/sync.rs lines 322-403),
returning the pair (synced, failed) or the propagated error, together
with the trace of its effects. -/
def sync_table (env : Env) (cfg : SyncBehaviorConfig) (m : TableMapping) (full_sync : Bool) :
    Except Error (Nat × Nat) × TableTrace :=
  match fetch_rows env m full_sync (fetchLimit cfg) with
  | .error e =>
    (.error e,
      ⟨[.Fetching], none, none, [], []⟩)
  | .ok rows =>
    if rows.length = 0 then
      (.ok (0, 0), ⟨[.Fetching], some rows, none, [], []⟩)
    else
      match (writeStep env cfg m rows).1 with
      | .error e =>
        (.error e,
          ⟨[.Fetching, .Inserting], some rows, none, (writeStep env cfg m rows).2, []⟩)
      | .ok synced =>
        if cfg.mark_synced && !full_sync && synced > 0 then
          match mark_synced env m (checkpointIds m rows) with
          | .error e =>
            (.error e,
              ⟨[.Fetching, .Inserting, .Marking], some rows, some synced,
                (writeStep env cfg m rows).2, [checkpointIds m rows]⟩)
          | .ok _ =>
            (.ok (synced, rows.length - synced),
              ⟨[.Fetching, .Inserting, .Marking, .Completed], some rows, some synced,
                (writeStep env cfg m rows).2, [checkpointIds m rows]⟩)
        else
          (.ok (synced, rows.length - synced),
            ⟨[.Fetching, .Inserting, .Completed], some rows, some synced,
              (writeStep env cfg m rows).2, []⟩)

/-- Trace of one `ensure_target_table` run: whether the source schema was
introspected and whether a creation was attempted. -/
structure ReconcileTrace where
  introspected : Bool
  created : Bool
deriving DecidableEq

/-- Embedding of `SyncClient::ensure_target_table` (src/sync.rs lines
285-318): a no-op when the target table exists; otherwise introspect the
source table, fail with `Error::config` when it yields no columns, and
create the target table from the schema. -/
def ensure_target_table (env : Env) (m : TableMapping) :
    Except Error Unit × ReconcileTrace :=
  match env.tableExists m.target_table with
  | .error _ =>
    (.error (.MotherDuckQuery m.target_table "Check table exists failed"), ⟨false, false⟩)
  | .ok true => (.ok (), ⟨false, false⟩)
  | .ok false =>
    match env.introspect m.source_table with
    | .error _ => (.error (.PostgresQuery m.source_table "Introspection failed"), ⟨true, false⟩)
    | .ok cols =>
      if cols.isEmpty then
        (.error (.Config ("Source table " ++ m.source_table ++ " has no columns or doesn\x27t exist")),
          ⟨true, false⟩)
      else
        match env.createTable m.target_table with
        | .error _ =>
          (.error (.MotherDuckQuery m.target_table "Create table failed"), ⟨true, true⟩)
        | .ok _ => (.ok (), ⟨true, true⟩)

/-- Embedding of `TableSyncResult` (src/sync.rs lines 70-85) without the
wall-clock `duration_ms` field. -/
structure TableSyncResult where
  source_table : String
  target_table : String
  success : Bool
  records_synced : Nat
  records_failed : Nat
  error : Option String
deriving DecidableEq

/-- The match in the sync loop that turns the outcome of `sync_table`
into a `TableSyncResult` (src/sync.rs lines 221-244). -/
def mkTableSyncResult (m : TableMapping) (res : Except Error (Nat × Nat)) : TableSyncResult :=
  match res with
  | .ok sf => ⟨m.source_table, m.target_table, true, sf.1, sf.2, none⟩
  | .error e => ⟨m.source_table, m.target_table, false, 0, 0, some e.render⟩

/-- Trace recorded for one enabled mapping processed by the sync loop. -/
structure MappingTrace where
  source_table : String
  reconcile : Option ReconcileTrace
  table : TableTrace

/-- The body of the sync loop for one enabled mapping (src/sync.rs lines
208-246): attempt schema reconciliation when auto-create is on (errors
only logged), then sync the table and record its result. -/
def processMapping (env : Env) (cfg : SyncBehaviorConfig) (m : TableMapping)
    (full_sync : Bool) : TableSyncResult × MappingTrace :=
  let recon := if cfg.auto_create_tables then some (ensure_target_table env m).2 else none
  let st := sync_table env cfg m full_sync
  (mkTableSyncResult m st.1, ⟨m.source_table, recon, st.2⟩)

/-- Insert with replacement into the results map, the embedding of
`HashMap::insert` on `table_results` (src/sync.rs line 246). -/
def resInsert (acc : List (String × TableSyncResult)) (k : String) (v : TableSyncResult) :
    List (String × TableSyncResult) :=
  if acc.any (fun p => p.1 = k) then
    acc.map (fun p => if p.1 = k then (k, v) else p)
  else acc ++ [(k, v)]

/-- Lookup in the results map, the embedding of `HashMap::get`. -/
def resGet (acc : List (String × TableSyncResult)) (k : String) : Option TableSyncResult :=
  (acc.find? (fun p => p.1 = k)).map (fun p => p.2)

/-- The per-mapping loop of `SyncClient::sync` (src/sync.rs lines
202-247): disabled mappings are skipped; each enabled mapping is
processed and its result inserted under its source table name, with the
overall success flag cleared on any table failure. -/
def syncLoop (env : Env) (cfg : SyncBehaviorConfig) (full_sync : Bool) :
    List TableMapping → List (String × TableSyncResult) → Bool → List MappingTrace →
    List (String × TableSyncResult) × Bool × List MappingTrace
  | [], acc, ok, trs => (acc, ok, trs)
  | m :: rest, acc, ok, trs =>
    if m.enabled then
      let p := processMapping env cfg m full_sync
      syncLoop env cfg full_sync rest
        (resInsert acc m.source_table p.1) (ok && p.1.success) (trs ++ [p.2])
    else
      syncLoop env cfg full_sync rest acc ok trs

/-- Embedding of `SyncResult` (src/sync.rs lines 36-49) without the
wall-clock `duration_ms` and `completed_at` fields; the table map is an
association list with at most one entry per key. -/
structure SyncResult where
  success : Bool
  mode : String
  tables : List (String × TableSyncResult)
  error : Option String

/-- Embedding of `SyncClient::sync` (src/sync.rs lines 184-281): when
auto-create is on, first ensure the schema and the fixed analytics
tables (failures there abort the run); then run the per-mapping loop and
assemble the aggregate result.  Returns the run trace alongside. -/
def sync (env : Env) (cfg : SyncConfig) (mode : SyncMode) :
    Except Error SyncResult × List MappingTrace :=
  let full_sync : Bool := mode.isFull
  let pre : Except Error Unit :=
    if cfg.sync.auto_create_tables then
      match env.ensureSchema with
      | .error _ => .error (.MotherDuckQuery "" "Create schema failed")
      | .ok _ =>
        match env.createAnalytics with
        | .error _ => .error (.MotherDuckQuery "" "Create analytics tables failed")
        | .ok _ => .ok ()
    else .ok ()
  match pre with
  | .error e => (.error e, [])
  | .ok _ =>
    let r := syncLoop env cfg.sync full_sync cfg.tables [] true []
    (.ok
      { success := r.2.1
        mode := mode.render
        tables := r.1
        error := if r.2.1 then none else some "Some tables failed to sync" },
      r.2.2)

/-- Base environment for the concrete scenarios below: every statement
succeeds, every table exists and every fetch returns no rows. -/
def okEnv : Env where
  tableExists := fun _ => .ok true
  introspect := fun _ => .ok []
  createTable := fun _ => .ok ()
  simpleQuery := fun _ => .ok []
  mdExec := fun _ _ _ => none
  markExec := fun _ _ => .ok 0
  ensureSchema := .ok ()
  createAnalytics := .ok ()

/-- An enabled mapping fixture with primary key `id` and the default
sync-flag column. -/
def mkMapping (src tgt : String) (f : Option String) : TableMapping :=
  ⟨src, tgt, ["id"], "synced_to_motherduck", [], [], f, none, true⟩

/-- A disabled mapping fixture. -/
def mkDisabled (src tgt : String) : TableMapping :=
  ⟨src, tgt, ["id"], "synced_to_motherduck", [], [], none, none, false⟩

/-- A behavior configuration fixture with no record cap. -/
def mkBehavior (batch : Nat) (tx mark auto : Bool) : SyncBehaviorConfig :=
  ⟨batch, tx, mark, "synced_to_motherduck", auto, 0⟩

/-- Is an Except value an error. -/
def exceptIsError : Except ε α → Bool
  | .error _ => true
  | .ok _ => false

/-- Extract the successful result of a sync run, with an inert default
for the error case. -/
def resultOrDefault : Except Error SyncResult → SyncResult
  | .ok r => r
  | .error _ => ⟨false, "", [], none⟩

/-- Scenario for C10: one raw row carrying a value, the sync-flag column
and a NULL. -/
def env10 : Env :=
  { okEnv with simpleQuery := fun _ =>
      Except.ok [[("id", some "1"), ("synced_to_motherduck", some "t"), ("note", none)]] }

/-- Mapping fixture for C10. -/
def m10 : TableMapping := mkMapping "t10" "d10" none

/-- Scenario for C6: the target table does not exist and introspection of
the source finds no columns. -/
def env6 : Env :=
  { okEnv with tableExists := fun _ => .ok false, introspect := fun _ => .ok [] }

/-- Mapping fixture for C6. -/
def m6 : TableMapping := mkMapping "t6" "d6" none

/-- The error produced by the C6 scenario. -/
def err6 : Error :=
  match (ensure_target_table env6 m6).1 with
  | .error e => e
  | .ok _ => .Cancelled

/-- Scenario for C3 and C8: two unsynced rows, the second without a
primary-key value; writes and marking succeed. -/
def env38 : Env :=
  { okEnv with simpleQuery := fun _ =>
      Except.ok [[("id", some "1"), ("synced_to_motherduck", some "f")], [("x", some "y")]] }

/-- Behavior fixture for C3 and C8: transactions on, marking on. -/
def cfg38 : SyncBehaviorConfig := mkBehavior 1000 true true false

/-- Mapping fixture for C3 and C8. -/
def m38 : TableMapping := mkMapping "t38" "d38" none

/-- The trace of the C3/C8 scenario under incremental mode. -/
def tr38 : TableTrace := (sync_table env38 cfg38 m38 false).2

/-- Scenario for C9: two rows, batch size one; the insert of the second
chunk fails after the first chunk has committed. -/
def env9 : Env :=
  { okEnv with
      simpleQuery := fun _ => Except.ok [[("id", some "1")], [("id", some "2")]]
      mdExec := fun _ i s => if i = 1 ∧ s = ChunkStep.insert then some "boom" else none }

/-- Mapping fixture for C9. -/
def m9 : TableMapping := mkMapping "t9" "d9" none

/-- Configuration fixture for C9. -/
def cfg9 : SyncConfig := ⟨mkBehavior 1 true false false, [m9]⟩

/-- The result of the C9 scenario run. -/
def res9 : SyncResult := resultOrDefault (sync env9 cfg9 SyncMode.Incremental).1

/-- The table entry recorded for the failed table of the C9 scenario. -/
def r9 : TableSyncResult :=
  (resGet res9.tables "t9").getD ⟨"", "", true, 0, 0, none⟩

/-- The trace of the C9 write path. -/
def tr9 : TableTrace := (sync_table env9 cfg9.sync m9 false).2

/-- Configuration for the C1 witness: three enabled mappings with
distinct source tables. -/
def cfg1 : SyncConfig :=
  ⟨mkBehavior 1000 true false false,
    [mkMapping "a1" "b1" none, mkMapping "a2" "b2" none, mkMapping "a3" "b3" none]⟩

/-- Environment for the C1 witness: the fetch of the second mapping
fails, the other two return no rows. -/
def env1 : Env :=
  { okEnv with simpleQuery := fun q =>
      if q = "SELECT * FROM a2 WHERE NOT synced_to_motherduck" then Except.error "boom"
      else Except.ok [] }

/-- The result of the C1 witness run. -/
def res1 : SyncResult := resultOrDefault (sync env1 cfg1 SyncMode.Incremental).1

/-- Configuration for the C1 counterexample: two enabled mappings with
the same source table, the first of which fails. -/
def cfgDup : SyncConfig :=
  ⟨mkBehavior 1000 true false false,
    [mkMapping "t" "u" (some "false"), mkMapping "t" "u" none]⟩

/-- Environment for the C1 counterexample: the filtered fetch of the
first mapping fails, the second returns no rows. -/
def envDup : Env :=
  { okEnv with simpleQuery := fun q =>
      if q = "SELECT * FROM t WHERE NOT synced_to_motherduck AND false" then Except.error "boom"
      else Except.ok [] }

/-- The result of the C1 counterexample run. -/
def resDup : SyncResult := resultOrDefault (sync envDup cfgDup SyncMode.Incremental).1

/-- Configuration for the C7 counterexample: a disabled and an enabled
mapping sharing one source table name. -/
def cfg7dup : SyncConfig :=
  ⟨mkBehavior 1000 true false false, [mkDisabled "t7" "u7", mkMapping "t7" "u7" none]⟩

/-- The result of the C7 counterexample run. -/
def res7dup : SyncResult := resultOrDefault (sync okEnv cfg7dup SyncMode.Incremental).1

/-- Configuration for the C7 witness: a disabled mapping whose source
table no enabled mapping shares. -/
def cfg7 : SyncConfig :=
  ⟨mkBehavior 1000 true false false, [mkDisabled "t7a" "u7a", mkMapping "t7b" "u7b" none]⟩

/-- The result of the C7 witness run. -/
def res7 : SyncResult := resultOrDefault (sync okEnv cfg7 SyncMode.Incremental).1

theorem chunksGo_nil (b fuel : Nat) : chunksGo (α := α) b fuel [] = [] := by
  cases fuel <;> rfl

theorem chunksGo_fuel_congr (b : Nat) (hb : 0 < b) :
    ∀ fuel₁ fuel₂ (l : List α), l.length ≤ fuel₁ → l.length ≤ fuel₂ →
      chunksGo b fuel₁ l = chunksGo b fuel₂ l := by
  intro fuel₁
  induction fuel₁ with
  | zero =>
    intro fuel₂ l h₁ _
    have : l = [] := List.eq_nil_of_length_eq_zero (Nat.le_zero.mp h₁)
    subst this
    simp [chunksGo_nil]
  | succ f ih =>
    intro fuel₂ l h₁ h₂
    cases l with
    | nil => simp [chunksGo_nil]
    | cons x xs =>
      cases fuel₂ with
      | zero => simp at h₂
      | succ g =>
        simp only [chunksGo]
        congr 1
        apply ih
        · calc (xs.drop (b - 1)).length = xs.length - (b - 1) := List.length_drop _ _
            _ ≤ xs.length := Nat.sub_le _ _
            _ ≤ f := by simpa using Nat.succ_le_succ_iff.mp h₁
        · calc (xs.drop (b - 1)).length = xs.length - (b - 1) := List.length_drop _ _
            _ ≤ xs.length := Nat.sub_le _ _
            _ ≤ g := by simpa using Nat.succ_le_succ_iff.mp h₂

theorem chunksOf_nil (b : Nat) : chunksOf (α := α) b [] = [] := rfl

theorem chunksOf_cons (b : Nat) (hb : 0 < b) (x : α) (xs : List α) :
    chunksOf b (x :: xs) = List.take b (x :: xs) :: chunksOf b (List.drop b (x :: xs)) := by
  obtain ⟨b, rfl⟩ := Nat.exists_eq_add_of_lt hb
  simp only [chunksOf, List.length_cons, chunksGo, List.take_succ_cons, List.drop_succ_cons]
  rw [Nat.zero_add, Nat.add_sub_cancel]
  congr 1
  exact chunksGo_fuel_congr _ (Nat.succ_pos b) _ _ _ (by simp [Nat.sub_le]) le_rfl

theorem chunksOf_flatten (b : Nat) (hb : 0 < b) :
    ∀ l : List α, (chunksOf b l).flatten = l := by
  intro l
  generalize hn : l.length = n
  induction n using Nat.strong_induction_on generalizing l with
  | _ n ih =>
    cases l with
    | nil => rfl
    | cons x xs =>
      rw [chunksOf_cons b hb]
      simp only [List.flatten_cons]
      rw [ih ((x :: xs).drop b).length _ _ rfl, List.take_append_drop]
      have : 0 < (x :: xs).length := by simp
      calc ((x :: xs).drop b).length = (x :: xs).length - b := List.length_drop _ _
        _ < (x :: xs).length := Nat.sub_lt this hb
        _ = n := hn

theorem ceil_div_step (b n : Nat) (hb : 0 < b) (hn : 1 ≤ n) :
    (n + b - 1) / b = (n - b + b - 1) / b + 1 := by
  have e₂ : n + b - 1 = n - 1 + b := by omega
  rw [e₂, Nat.add_div_right _ hb]
  rcases le_or_lt n b with h | h
  · have h₀ : n - b = 0 := Nat.sub_eq_zero_of_le h
    rw [h₀, Nat.zero_add, Nat.div_eq_of_lt (Nat.sub_lt hb Nat.one_pos),
      Nat.div_eq_of_lt (by omega)]
  · have e₁ : n - b + b - 1 = n - 1 := by omega
    rw [e₁]

theorem chunksOf_length (b : Nat) (hb : 0 < b) :
    ∀ l : List α, (chunksOf b l).length = (l.length + b - 1) / b := by
  intro l
  generalize hn : l.length = n
  induction n using Nat.strong_induction_on generalizing l with
  | _ n ih =>
    cases l with
    | nil =>
      simp only [chunksOf_nil, List.length_nil]
      have : n = 0 := by simpa using hn.symm
      subst this
      rw [Nat.zero_add, Nat.div_eq_of_lt (Nat.sub_lt hb Nat.one_pos)]
    | cons x xs =>
      rw [chunksOf_cons b hb]
      have hlt : ((x :: xs).drop b).length < n := by
        have : 0 < (x :: xs).length := by simp
        calc ((x :: xs).drop b).length = (x :: xs).length - b := List.length_drop _ _
          _ < (x :: xs).length := Nat.sub_lt this hb
          _ = n := hn
      have hrec := ih _ hlt ((x :: xs).drop b) rfl
      simp only [List.length_cons, hrec, List.length_drop]
      rw [← hn]
      have hpos : 1 ≤ (x :: xs).length := by simp
      exact (ceil_div_step b (x :: xs).length hb hpos).symm

theorem chunksOf_mem (b : Nat) (hb : 0 < b) :
    ∀ l : List α, ∀ c ∈ chunksOf b l, c.length ≤ b ∧ c ≠ [] := by
  intro l
  generalize hn : l.length = n
  induction n using Nat.strong_induction_on generalizing l with
  | _ n ih =>
    cases l with
    | nil => intro c hc; simp [chunksOf_nil] at hc
    | cons x xs =>
      intro c hc
      rw [chunksOf_cons b hb] at hc
      rcases List.mem_cons.mp hc with h | h
      · subst h
        constructor
        · simpa using List.length_take_le b (x :: xs)
        · obtain ⟨b, rfl⟩ := Nat.exists_eq_add_of_lt hb
          simp [List.take_succ_cons]
      · have hlt : ((x :: xs).drop b).length < n := by
          have : 0 < (x :: xs).length := by simp
          calc ((x :: xs).drop b).length = (x :: xs).length - b := List.length_drop _ _
            _ < (x :: xs).length := Nat.sub_lt this hb
            _ = n := hn
        exact ih _ hlt _ rfl c h

theorem chunksOf_dropLast (b : Nat) (hb : 0 < b) :
    ∀ l : List α, ∀ c ∈ (chunksOf b l).dropLast, c.length = b := by
  intro l
  generalize hn : l.length = n
  induction n using Nat.strong_induction_on generalizing l with
  | _ n ih =>
    cases l with
    | nil => intro c hc; simp [chunksOf_nil] at hc
    | cons x xs =>
      intro c hc
      rw [chunksOf_cons b hb] at hc
      have hlt : ((x :: xs).drop b).length < n := by
        have : 0 < (x :: xs).length := by simp
        calc ((x :: xs).drop b).length = (x :: xs).length - b := List.length_drop _ _
          _ < (x :: xs).length := Nat.sub_lt this hb
          _ = n := hn
      cases hrest : chunksOf b ((x :: xs).drop b) with
      | nil => rw [hrest] at hc; simp at hc
      | cons y ys =>
        rw [hrest, List.dropLast_cons₂] at hc
        rcases List.mem_cons.mp hc with h | h
        · subst h
          have hne : (x :: xs).drop b ≠ [] := by
            intro hdrop
            rw [hdrop, chunksOf_nil] at hrest
            exact List.noConfusion hrest
          have hblen : b ≤ (x :: xs).length := by
            by_contra hcon
            exact hne (List.drop_eq_nil_of_le (Nat.le_of_not_le hcon))
          rw [List.length_take]
          exact Nat.min_eq_left hblen
        · rw [← hrest] at h
          exact ih _ hlt _ rfl c h

theorem escSqlQuote_eq_nil_iff (s : List Char) : escSqlQuote s = [] ↔ s = [] := by
  cases s with
  | nil => simp [escSqlQuote]
  | cons c cs =>
    simp only [escSqlQuote]
    constructor
    · intro h
      by_cases hc : c = sq <;> simp [hc] at h
    · intro h
      exact List.noConfusion h

theorem collapseQuotes_escSqlQuote : ∀ s : List Char, collapseQuotes (escSqlQuote s) = s
  | [] => rfl
  | c :: cs => by
    by_cases hc : c = sq
    · subst hc
      simp only [escSqlQuote, if_pos rfl, collapseQuotes, and_self, ite_true]
      rw [collapseQuotes_escSqlQuote cs]
    · simp only [escSqlQuote, if_neg hc]
      cases hcs : escSqlQuote cs with
      | nil =>
        rw [(escSqlQuote_eq_nil_iff cs).mp hcs]
        rfl
      | cons d rest =>
        have hstep : collapseQuotes (c :: d :: rest) = c :: collapseQuotes (d :: rest) := by
          simp only [collapseQuotes]
          rw [if_neg (fun h => hc h.1)]
        rw [hstep, ← hcs, collapseQuotes_escSqlQuote cs]

/-- The claim C2 as stated: the scalar-to-literal conversion is total over
the value variants with the stated rendering for each variant, and
unescaping the literal produced for any string (stripping the outer
quotes, collapsing doubled quotes) gives back exactly that string. -/
theorem C2_literal_conversion_and_roundtrip :
    json_to_sql_literal .null = "NULL".data ∧
    (∀ b, json_to_sql_literal (.bool b) = if b then "TRUE".data else "FALSE".data) ∧
    (∀ n, json_to_sql_literal (.num n) = n.data) ∧
    (∀ s, json_to_sql_literal (.str s) = sq :: escSqlQuote s.data ++ [sq]) ∧
    (∀ xs, json_to_sql_literal (.arr xs) = sq :: escSqlQuote (Json.render (.arr xs)) ++ [sq]) ∧
    (∀ kvs, json_to_sql_literal (.obj kvs) = sq :: escSqlQuote (Json.render (.obj kvs)) ++ [sq]) ∧
    (∀ s : String, unescapeSqlLiteral (json_to_sql_literal (.str s)) = s.data) := by
  refine ⟨rfl, fun b => rfl, fun n => rfl, fun s => rfl, fun xs => rfl, fun kvs => rfl, fun s => ?_⟩
  show collapseQuotes (((sq :: escSqlQuote s.data ++ [sq]).drop 1).dropLast) = s.data
  have h1 : (sq :: escSqlQuote s.data ++ [sq]).drop 1 = escSqlQuote s.data ++ [sq] := rfl
  rw [h1, List.dropLast_concat]
  exact collapseQuotes_escSqlQuote s.data

/-- The claim C4 as stated: the source-type translation is a total
function (each type name has exactly one image), `numeric` maps to the
decimal type with precision 38 and scale 9, `timestamptz` maps to the
timestamp-with-timezone type, the unrecognized name `hstore` falls back
to the text type, and that fallback renders as the unbounded string type
of the target store. -/
theorem C4_type_mapping_total :
    (∀ s : String, ∃! t : ColumnType, ColumnType.from_postgres s = t) ∧
    ColumnType.from_postgres "numeric" = ColumnType.decimal 38 9 ∧
    ColumnType.from_postgres "timestamptz" = ColumnType.timestampTz ∧
    ColumnType.from_postgres "hstore" = ColumnType.text ∧
    ColumnType.to_duckdb ColumnType.text = "VARCHAR" := by
  refine ⟨fun s => ⟨ColumnType.from_postgres s, rfl, fun t ht => ht.symm⟩, ?_, ?_, ?_, rfl⟩
  · decide
  · decide
  · decide

theorem chunksOf_eq_cons (b : Nat) (hb : 0 < b) (l : List α) (hne : l ≠ []) :
    chunksOf b l = l.take b :: chunksOf b (l.drop b) := by
  cases l with
  | nil => exact absurd rfl hne
  | cons x xs => exact chunksOf_cons b hb x xs

theorem runChunk_allOk (env : Env) (t : String) (i : Nat)
    (h : ∀ j s, env.mdExec t j s = none) : runChunk env t i = none := by
  simp only [runChunk, h]

theorem batchUpsertGo_allOk (env : Env) (t : String)
    (h : ∀ j s, env.mdExec t j s = none) :
    ∀ (chunks : List (List Row)) (i tot : Nat),
      batchUpsertGo env t i tot chunks = (.ok (tot + chunks.flatten.length), chunks) := by
  intro chunks
  induction chunks with
  | nil => intro i tot; simp [batchUpsertGo]
  | cons c rest ih =>
    intro i tot
    simp only [batchUpsertGo, runChunk_allOk env t i h, ih, List.flatten_cons,
      List.length_append, Prod.mk.injEq, Except.ok.injEq]
    refine ⟨by omega, trivial⟩

theorem replicate_ne_nil_of_pos (n : Nat) (hn : 0 < n) (a : α) :
    List.replicate n a ≠ [] := by
  intro h
  have hlen := congrArg List.length h
  rw [List.length_replicate] at hlen
  simp only [List.length_nil] at hlen
  omega

/-- The claim C5 as stated: for a non-empty row list and a positive batch
size, `batch_upsert` splits the rows into ceil(n/b) chunks, in order
(their concatenation is the input), each of size at most `b` with every
chunk before the last of size exactly `b`, and issues one write per
chunk: when every chunk statement succeeds, the committed chunk list is
exactly the chunk decomposition and the reported total is the row
count. -/
theorem C5_batch_upsert_chunking (rows : List Row) (b : Nat) (hb : 0 < b) (hne : rows ≠ []) :
    (chunksOf b rows).length = (rows.length + b - 1) / b ∧
    (chunksOf b rows).flatten = rows ∧
    (∀ c ∈ chunksOf b rows, c.length ≤ b ∧ c ≠ []) ∧
    (∀ c ∈ (chunksOf b rows).dropLast, c.length = b) ∧
    (∀ (env : Env) (m : TableMapping),
      (∀ j s, env.mdExec m.target_table j s = none) →
      batch_upsert env m rows b = (.ok rows.length, chunksOf b rows)) := by
  refine ⟨chunksOf_length b hb rows, chunksOf_flatten b hb rows, chunksOf_mem b hb rows,
    chunksOf_dropLast b hb rows, fun env m h => ?_⟩
  rw [batch_upsert, if_neg (by simpa [List.isEmpty_iff] using hne)]
  rw [batchUpsertGo_allOk env m.target_table h (chunksOf b rows) 0 0]
  rw [Nat.zero_add, chunksOf_flatten b hb rows]

/-- Witness for C5 at the instance named by the spec: 2500 rows with
batch size 1000 give exactly 3 chunks of sizes 1000, 1000 and 500. -/
theorem C5_batch_upsert_chunking_witness :
    0 < 1000 ∧ (List.replicate 2500 ([] : Row)) ≠ [] ∧
    (chunksOf 1000 (List.replicate 2500 ([] : Row))).length =
      (2500 + 1000 - 1) / 1000 ∧
    (chunksOf 1000 (List.replicate 2500 ([] : Row))).map List.length = [1000, 1000, 500] := by
  have hb : (0 : Nat) < 1000 := by norm_num
  have hne := replicate_ne_nil_of_pos 2500 (by norm_num) ([] : Row)
  have main := C5_batch_upsert_chunking (List.replicate 2500 ([] : Row)) 1000 hb hne
  refine ⟨hb, hne, ?_, ?_⟩
  · rw [main.1, List.length_replicate]
  · have s1 : chunksOf 1000 (List.replicate 2500 ([] : Row)) =
        List.replicate 1000 ([] : Row) :: chunksOf 1000 (List.replicate 1500 ([] : Row)) := by
      rw [chunksOf_eq_cons 1000 hb _ hne, List.take_replicate, List.drop_replicate]
      norm_num
    have s2 : chunksOf 1000 (List.replicate 1500 ([] : Row)) =
        List.replicate 1000 ([] : Row) :: chunksOf 1000 (List.replicate 500 ([] : Row)) := by
      rw [chunksOf_eq_cons 1000 hb _ (replicate_ne_nil_of_pos 1500 (by norm_num) _),
        List.take_replicate, List.drop_replicate]
      norm_num
    have s3 : chunksOf 1000 (List.replicate 500 ([] : Row)) =
        [List.replicate 500 ([] : Row)] := by
      rw [chunksOf_eq_cons 1000 hb _ (replicate_ne_nil_of_pos 500 (by norm_num) _),
        List.take_replicate, List.drop_replicate]
      norm_num
      exact chunksOf_nil 1000
    rw [s1, s2, s3]
    simp only [List.map_cons, List.map_nil, List.length_replicate]

theorem mapInsert_mem (pred : String × Json → Prop) (m : Row) (k : String) (v : Json)
    (hm : ∀ kv ∈ m, pred kv) (hkv : pred (k, v)) :
    ∀ kv ∈ mapInsert m k v, pred kv := by
  intro kv hmem
  unfold mapInsert at hmem
  split at hmem
  · rcases List.mem_map.mp hmem with ⟨p, hp, he⟩
    split at he
    · cases he
      exact hkv
    · cases he
      exact hm _ hp
  · rcases List.mem_append.mp hmem with h | h
    · exact hm kv h
    · have : kv = (k, v) := List.mem_singleton.mp h
      cases this
      exact hkv

theorem simple_row_foldl_spec (skip : String) :
    ∀ (raw : SimpleRow) (acc : Row),
      (∀ kv ∈ acc, kv.1 ≠ skip ∧ (kv.2 = Json.null ∨ ∃ s, kv.2 = Json.str s)) →
      ∀ kv ∈ raw.foldl
          (fun m p =>
            if p.1 = skip then m
            else mapInsert m p.1 (match p.2 with | some s => Json.str s | none => Json.null))
          acc,
        kv.1 ≠ skip ∧ (kv.2 = Json.null ∨ ∃ s, kv.2 = Json.str s) := by
  intro raw
  induction raw with
  | nil =>
    intro acc hacc kv hkv
    exact hacc kv hkv
  | cons p rest ih =>
    intro acc hacc kv hkv
    simp only [List.foldl_cons] at hkv
    by_cases hps : p.1 = skip
    · rw [if_pos hps] at hkv
      exact ih acc hacc kv hkv
    · rw [if_neg hps] at hkv
      refine ih _ ?_ kv hkv
      refine mapInsert_mem _ acc p.1 _ hacc ⟨hps, ?_⟩
      cases p.2 with
      | none => exact Or.inl rfl
      | some s => exact Or.inr ⟨s, rfl⟩

/-- The claim C10 as stated: every row returned by `fetch_rows` has no
entry keyed by the sync-flag column, and every value in it is JSON null
or a JSON string. -/
theorem C10_fetch_rows_values_null_or_string (env : Env) (m : TableMapping)
    (full : Bool) (limit : Option Nat) (rows : List Row)
    (h : fetch_rows env m full limit = .ok rows) :
    ∀ r ∈ rows, ∀ kv ∈ r,
      kv.1 ≠ m.sync_flag_column ∧ (kv.2 = Json.null ∨ ∃ s, kv.2 = Json.str s) := by
  intro r hr kv hkv
  unfold fetch_rows at h
  cases hq : env.simpleQuery (buildFetchQuery m full limit) with
  | error e =>
    rw [hq] at h
    exact absurd h (by simp)
  | ok msgs =>
    rw [hq] at h
    injection h with h
    subst h
    rcases List.mem_map.mp hr with ⟨raw, _, rfl⟩
    exact simple_row_foldl_spec m.sync_flag_column raw [] (by simp) kv hkv

/-- Witness for C10: a concrete fetch whose raw row carries a value, the
sync-flag column and a NULL; the converted row drops the flag column and
holds one string and one null. -/
theorem C10_fetch_rows_values_witness :
    fetch_rows env10 m10 false none =
      Except.ok [[("id", Json.str "1"), ("note", Json.null)]] ∧
    (∀ r ∈ [[("id", Json.str "1"), ("note", Json.null)]], ∀ kv ∈ r,
      kv.1 ≠ m10.sync_flag_column ∧ (kv.2 = Json.null ∨ ∃ s, kv.2 = Json.str s)) :=
  ⟨rfl, C10_fetch_rows_values_null_or_string env10 m10 false none _ rfl⟩

/-- The claim C6 amended: reconciliation is a no-op when the target table
already exists (no introspection, no creation, success); when the table
is absent and introspection returns zero columns it fails — with a
Configuration error (the code raises a configuration error here, not a
Schema error). -/
theorem C6_reconcile_noop_and_zero_columns (env : Env) (m : TableMapping) :
    (env.tableExists m.target_table = .ok true →
      ensure_target_table env m = (.ok (), ⟨false, false⟩)) ∧
    (env.tableExists m.target_table = .ok false →
      env.introspect m.source_table = .ok [] →
      ensure_target_table env m =
        (.error (.Config ("Source table " ++ m.source_table ++
            " has no columns or doesn\x27t exist")), ⟨true, false⟩)) := by
  constructor
  · intro h
    unfold ensure_target_table
    rw [h]
  · intro h hi
    unfold ensure_target_table
    rw [h, hi]
    rfl

/-- Counterexample to C6 as stated: in the zero-column scenario the
raised error has the configuration code, not the schema code, and is not
a Schema error for any message. -/
theorem C6_counterexample_not_schema_error :
    (ensure_target_table env6 m6).1 = .error err6 ∧
    err6.code = "CONFIG_ERROR" ∧
    err6.code ≠ "SCHEMA_ERROR" ∧
    (∀ msg, (ensure_target_table env6 m6).1 ≠ .error (Error.Schema msg)) := by
  refine ⟨rfl, rfl, by decide, ?_⟩
  intro msg h
  have h1 : (ensure_target_table env6 m6).1 = .error err6 := rfl
  rw [h1] at h
  injection h with h
  have hc := congrArg Error.code h
  simp only [Error.code] at hc
  exact absurd hc (by decide)

/-- Witness for C6: the no-op branch on an environment where the target
table exists, and the zero-column failure branch on the C6 scenario. -/
theorem C6_reconcile_witness :
    ensure_target_table okEnv m6 = (.ok (), ⟨false, false⟩) ∧
    ensure_target_table env6 m6 =
      (.error (.Config ("Source table " ++ m6.source_table ++
          " has no columns or doesn\x27t exist")), ⟨true, false⟩) :=
  ⟨(C6_reconcile_noop_and_zero_columns okEnv m6).1 rfl,
    (C6_reconcile_noop_and_zero_columns env6 m6).2 rfl rfl⟩

/-- Case analysis of `sync_table`: it lands in exactly one of six
terminal shapes, determined by the fetch result, the row count, the
write result and the marking condition. -/
theorem sync_table_shape (env : Env) (cfg : SyncBehaviorConfig) (m : TableMapping)
    (full : Bool) :
    (∃ e, fetch_rows env m full (fetchLimit cfg) = .error e ∧
      sync_table env cfg m full = (.error e, ⟨[.Fetching], none, none, [], []⟩)) ∨
    (∃ rows, fetch_rows env m full (fetchLimit cfg) = .ok rows ∧ rows.length = 0 ∧
      sync_table env cfg m full = (.ok (0, 0), ⟨[.Fetching], some rows, none, [], []⟩)) ∨
    (∃ rows e, fetch_rows env m full (fetchLimit cfg) = .ok rows ∧ rows.length ≠ 0 ∧
      (writeStep env cfg m rows).1 = .error e ∧
      sync_table env cfg m full =
        (.error e, ⟨[.Fetching, .Inserting], some rows, none, (writeStep env cfg m rows).2, []⟩)) ∨
    (∃ rows synced, fetch_rows env m full (fetchLimit cfg) = .ok rows ∧ rows.length ≠ 0 ∧
      (writeStep env cfg m rows).1 = .ok synced ∧
      (cfg.mark_synced && !full && decide (synced > 0)) = false ∧
      sync_table env cfg m full =
        (.ok (synced, rows.length - synced),
          ⟨[.Fetching, .Inserting, .Completed], some rows, some synced,
            (writeStep env cfg m rows).2, []⟩)) ∨
    (∃ rows synced e, fetch_rows env m full (fetchLimit cfg) = .ok rows ∧ rows.length ≠ 0 ∧
      (writeStep env cfg m rows).1 = .ok synced ∧
      (cfg.mark_synced && !full && decide (synced > 0)) = true ∧
      mark_synced env m (checkpointIds m rows) = .error e ∧
      sync_table env cfg m full =
        (.error e, ⟨[.Fetching, .Inserting, .Marking], some rows, some synced,
          (writeStep env cfg m rows).2, [checkpointIds m rows]⟩)) ∨
    (∃ rows synced k, fetch_rows env m full (fetchLimit cfg) = .ok rows ∧ rows.length ≠ 0 ∧
      (writeStep env cfg m rows).1 = .ok synced ∧
      (cfg.mark_synced && !full && decide (synced > 0)) = true ∧
      mark_synced env m (checkpointIds m rows) = .ok k ∧
      sync_table env cfg m full =
        (.ok (synced, rows.length - synced),
          ⟨[.Fetching, .Inserting, .Marking, .Completed], some rows, some synced,
            (writeStep env cfg m rows).2, [checkpointIds m rows]⟩)) := by
  cases hf : fetch_rows env m full (fetchLimit cfg) with
  | error e =>
    exact Or.inl ⟨e, rfl, by simp [sync_table, hf]⟩
  | ok rows =>
    by_cases h0 : rows.length = 0
    · exact Or.inr (Or.inl ⟨rows, rfl, h0, by simp [sync_table, hf, h0]⟩)
    · cases hw : (writeStep env cfg m rows).1 with
      | error e =>
        exact Or.inr (Or.inr (Or.inl ⟨rows, e, rfl, h0, hw, by simp [sync_table, hf, h0, hw]⟩))
      | ok synced =>
        by_cases hc : (cfg.mark_synced && !full && decide (synced > 0)) = true
        · cases hmk : mark_synced env m (checkpointIds m rows) with
          | error e =>
            refine Or.inr (Or.inr (Or.inr (Or.inr (Or.inl
              ⟨rows, synced, e, rfl, h0, hw, hc, hmk, ?_⟩))))
            simp [sync_table, hf, h0, hw, hc, hmk]
          | ok k =>
            refine Or.inr (Or.inr (Or.inr (Or.inr (Or.inr
              ⟨rows, synced, k, rfl, h0, hw, hc, hmk, ?_⟩))))
            simp [sync_table, hf, h0, hw, hc, hmk]
        · rw [Bool.not_eq_true] at hc
          refine Or.inr (Or.inr (Or.inr (Or.inl ⟨rows, synced, rfl, h0, hw, hc, ?_⟩)))
          simp [sync_table, hf, h0, hw, hc]

theorem checkpointIds_eq_filter_map (m : TableMapping) :
    ∀ rows : List Row, checkpointIds m rows =
      (rows.filter (fun r => (rowGet r m.primary_key.headI).isSome)).map
        (fun r => jsonIdText ((rowGet r m.primary_key.headI).getD Json.null)) := by
  intro rows
  induction rows with
  | nil => rfl
  | cons r rest ih =>
    cases hg : rowGet r m.primary_key.headI with
    | none =>
      simp only [checkpointIds] at ih ⊢
      simp [List.filterMap_cons, List.filter_cons, hg, ih]
    | some v =>
      simp only [checkpointIds] at ih ⊢
      simp [List.filterMap_cons, List.filter_cons, hg, ih]

/-- The claim C3 as stated: the checkpoint call happens exactly when the
mode is incremental, `mark_synced` is on and more than zero rows were
written; the id list passed is derived from the fetched rows, keeping,
for each row that has a value under the first primary-key column, that
value coerced to text, and silently dropping rows without one. -/
theorem C3_checkpoint_iff_and_ids (env : Env) (cfg : SyncBehaviorConfig)
    (m : TableMapping) (full : Bool) :
    ((sync_table env cfg m full).2.markCalls ≠ [] ↔
      cfg.mark_synced = true ∧ full = false ∧
      ∃ n, (sync_table env cfg m full).2.written = some n ∧ 0 < n) ∧
    (∀ ids ∈ (sync_table env cfg m full).2.markCalls,
      ∃ rows, (sync_table env cfg m full).2.fetched = some rows ∧
        ids = checkpointIds m rows) ∧
    (full = true → (sync_table env cfg m full).2.markCalls = []) ∧
    (∀ rows : List Row, checkpointIds m rows =
      (rows.filter (fun r => (rowGet r m.primary_key.headI).isSome)).map
        (fun r => jsonIdText ((rowGet r m.primary_key.headI).getD Json.null))) := by
  rcases sync_table_shape env cfg m full with
    ⟨e, hf, hst⟩ | ⟨rows, hf, h0, hst⟩ | ⟨rows, e, hf, h0, hw, hst⟩ |
    ⟨rows, synced, hf, h0, hw, hc, hst⟩ | ⟨rows, synced, e, hf, h0, hw, hc, hmk, hst⟩ |
    ⟨rows, synced, k, hf, h0, hw, hc, hmk, hst⟩
  all_goals rw [hst]
  · exact ⟨by simp, by simp, fun _ => rfl, checkpointIds_eq_filter_map m⟩
  · exact ⟨by simp, by simp, fun _ => rfl, checkpointIds_eq_filter_map m⟩
  · exact ⟨by simp, by simp, fun _ => rfl, checkpointIds_eq_filter_map m⟩
  · refine ⟨?_, by simp, fun _ => rfl, checkpointIds_eq_filter_map m⟩
    constructor
    · intro h
      exact absurd rfl h
    · rintro ⟨hm, hfull, n, hn, hpos⟩
      injection hn with hn
      subst hfull
      rw [hm] at hc
      simp at hc
      omega
  · refine ⟨?_, ?_, ?_, checkpointIds_eq_filter_map m⟩
    · simp only [Bool.and_eq_true, Bool.not_eq_true'] at hc
      refine ⟨fun _ => ⟨hc.1.1, hc.1.2, synced, rfl, by simpa using hc.2⟩, fun _ => by simp⟩
    · intro ids hids
      exact ⟨rows, rfl, List.mem_singleton.mp hids⟩
    · intro hfull
      simp only [Bool.and_eq_true, Bool.not_eq_true'] at hc
      rw [hfull] at hc
      exact absurd hc.1.2 (by simp)
  · refine ⟨?_, ?_, ?_, checkpointIds_eq_filter_map m⟩
    · simp only [Bool.and_eq_true, Bool.not_eq_true'] at hc
      refine ⟨fun _ => ⟨hc.1.1, hc.1.2, synced, rfl, by simpa using hc.2⟩, fun _ => by simp⟩
    · intro ids hids
      exact ⟨rows, rfl, List.mem_singleton.mp hids⟩
    · intro hfull
      simp only [Bool.and_eq_true, Bool.not_eq_true'] at hc
      rw [hfull] at hc
      exact absurd hc.1.2 (by simp)

/-- Witness for C3: a concrete incremental run over two fetched rows,
one of which lacks the primary-key column; the checkpoint is invoked
with exactly the id of the other row. -/
theorem C3_checkpoint_witness :
    (sync_table env38 cfg38 m38 false).2.markCalls = [["1"]] ∧
    (∃ rows, (sync_table env38 cfg38 m38 false).2.fetched = some rows ∧
      ["1"] = checkpointIds m38 rows) ∧
    ((sync_table env38 cfg38 m38 false).2.markCalls ≠ [] ↔
      cfg38.mark_synced = true ∧ false = false ∧
      ∃ n, (sync_table env38 cfg38 m38 false).2.written = some n ∧ 0 < n) :=
  ⟨rfl,
    (C3_checkpoint_iff_and_ids env38 cfg38 m38 false).2.1 ["1"] (by decide),
    (C3_checkpoint_iff_and_ids env38 cfg38 m38 false).1⟩

/-- The claim C8 amended: per table the progress callback is invoked in
the order Fetching, Inserting, Marking, Completed; Connecting and Failed
are never reported; the tail of the sequence is cut short when the fetch
fails or returns zero rows, when the write fails, or when marking fails;
Marking appears exactly under the documented conditions and Completed
exactly on a successful run over a non-empty fetch. -/
theorem C8_progress_phase_order (env : Env) (cfg : SyncBehaviorConfig)
    (m : TableMapping) (full : Bool) :
    ((sync_table env cfg m full).2.phases = [SyncPhase.Fetching] ∨
     (sync_table env cfg m full).2.phases = [SyncPhase.Fetching, SyncPhase.Inserting] ∨
     (sync_table env cfg m full).2.phases =
       [SyncPhase.Fetching, SyncPhase.Inserting, SyncPhase.Completed] ∨
     (sync_table env cfg m full).2.phases =
       [SyncPhase.Fetching, SyncPhase.Inserting, SyncPhase.Marking] ∨
     (sync_table env cfg m full).2.phases =
       [SyncPhase.Fetching, SyncPhase.Inserting, SyncPhase.Marking, SyncPhase.Completed]) ∧
    SyncPhase.Connecting ∉ (sync_table env cfg m full).2.phases ∧
    SyncPhase.Failed ∉ (sync_table env cfg m full).2.phases ∧
    (SyncPhase.Marking ∈ (sync_table env cfg m full).2.phases ↔
      cfg.mark_synced = true ∧ full = false ∧
      ∃ n, (sync_table env cfg m full).2.written = some n ∧ 0 < n) ∧
    (SyncPhase.Completed ∈ (sync_table env cfg m full).2.phases ↔
      ∃ p, (sync_table env cfg m full).1 = .ok p ∧
        ∃ rows, (sync_table env cfg m full).2.fetched = some rows ∧ rows.length ≠ 0) := by
  rcases sync_table_shape env cfg m full with
    ⟨e, hf, hst⟩ | ⟨rows, hf, h0, hst⟩ | ⟨rows, e, hf, h0, hw, hst⟩ |
    ⟨rows, synced, hf, h0, hw, hc, hst⟩ | ⟨rows, synced, e, hf, h0, hw, hc, hmk, hst⟩ |
    ⟨rows, synced, k, hf, h0, hw, hc, hmk, hst⟩
  all_goals rw [hst]
  · refine ⟨Or.inl rfl, by simp, by simp, ⟨by simp, ?_⟩, ⟨by simp, ?_⟩⟩
    · rintro ⟨-, -, n, hn, -⟩
      exact absurd hn (by simp)
    · rintro ⟨p, hp, -⟩
      exact absurd hp (by simp)
  · refine ⟨Or.inl rfl, by simp, by simp, ⟨by simp, ?_⟩, ⟨by simp, ?_⟩⟩
    · rintro ⟨-, -, n, hn, -⟩
      exact absurd hn (by simp)
    · rintro ⟨p, -, rows', hr, hne⟩
      injection hr with hr
      exact (hne (hr ▸ h0)).elim
  · refine ⟨Or.inr (Or.inl rfl), by simp, by simp, ⟨by simp, ?_⟩, ⟨by simp, ?_⟩⟩
    · rintro ⟨-, -, n, hn, -⟩
      exact absurd hn (by simp)
    · rintro ⟨p, hp, -⟩
      exact absurd hp (by simp)
  · refine ⟨Or.inr (Or.inr (Or.inl rfl)), by simp, by simp, ⟨by simp, ?_⟩,
      ⟨fun _ => ⟨(synced, rows.length - synced), rfl, rows, rfl, h0⟩, fun _ => by simp⟩⟩
    rintro ⟨hm, hfull, n, hn, hpos⟩
    injection hn with hn
    subst hfull
    rw [hm] at hc
    simp at hc
    omega
  · refine ⟨Or.inr (Or.inr (Or.inr (Or.inl rfl))), by simp, by simp, ?_, ⟨by simp, ?_⟩⟩
    · simp only [Bool.and_eq_true, Bool.not_eq_true'] at hc
      exact ⟨fun _ => ⟨hc.1.1, hc.1.2, synced, rfl, by simpa using hc.2⟩, fun _ => by simp⟩
    · rintro ⟨p, hp, -⟩
      exact absurd hp (by simp)
  · refine ⟨Or.inr (Or.inr (Or.inr (Or.inr rfl))), by simp, by simp, ?_,
      ⟨fun _ => ⟨(synced, rows.length - synced), rfl, rows, rfl, h0⟩, fun _ => by simp⟩⟩
    simp only [Bool.and_eq_true, Bool.not_eq_true'] at hc
    exact ⟨fun _ => ⟨hc.1.1, hc.1.2, synced, rfl, by simpa using hc.2⟩, fun _ => by simp⟩

/-- Counterexample to C8 as stated: a fully successful incremental table
run reports the phases Fetching, Inserting, Marking, Completed — the
Connecting phase demanded first by the claimed order is never
reported. -/
theorem C8_counterexample_no_connecting :
    tr38.phases = [SyncPhase.Fetching, SyncPhase.Inserting, SyncPhase.Marking,
      SyncPhase.Completed] ∧
    tr38.phases ≠ [SyncPhase.Connecting, SyncPhase.Fetching, SyncPhase.Inserting,
      SyncPhase.Marking, SyncPhase.Completed] ∧
    SyncPhase.Connecting ∉ tr38.phases :=
  ⟨rfl, by decide, by decide⟩

/-- Witness for C8: on the concrete successful scenario the amended
order holds, with Marking present and Connecting absent. -/
theorem C8_progress_phase_witness :
    SyncPhase.Marking ∈ (sync_table env38 cfg38 m38 false).2.phases ∧
    SyncPhase.Connecting ∉ (sync_table env38 cfg38 m38 false).2.phases :=
  ⟨(C8_progress_phase_order env38 cfg38 m38 false).2.2.2.1.mpr
      ⟨rfl, rfl, 2, rfl, by decide⟩,
    (C8_progress_phase_order env38 cfg38 m38 false).2.1⟩

theorem resInsert_mem (acc : List (String × TableSyncResult)) (k : String)
    (v : TableSyncResult) :
    ∀ q ∈ resInsert acc k v, q ∈ acc ∨ q = (k, v) := by
  intro q hq
  unfold resInsert at hq
  split at hq
  · rcases List.mem_map.mp hq with ⟨p, hp, he⟩
    split at he
    · exact Or.inr he.symm
    · exact Or.inl (he ▸ hp)
  · rcases List.mem_append.mp hq with h | h
    · exact Or.inl h
    · exact Or.inr (List.mem_singleton.mp h)

theorem resInsert_not_mem (acc : List (String × TableSyncResult)) (k : String)
    (v : TableSyncResult) (h : ∀ p ∈ acc, p.1 ≠ k) :
    resInsert acc k v = acc ++ [(k, v)] := by
  unfold resInsert
  rw [if_neg]
  simp only [List.any_eq_true, not_exists, not_and]
  intro p hp
  simp [h p hp]

theorem resGet_none (acc : List (String × TableSyncResult)) (k : String)
    (h : ∀ p ∈ acc, p.1 ≠ k) : resGet acc k = none := by
  unfold resGet
  rw [List.find?_eq_none.mpr]
  · rfl
  · intro p hp
    simp [h p hp]

theorem resGet_cons (k' : String) (v : TableSyncResult)
    (rest : List (String × TableSyncResult)) (k : String) :
    resGet ((k', v) :: rest) k = if k' = k then some v else resGet rest k := by
  unfold resGet
  by_cases h : k' = k
  · rw [if_pos h, List.find?_cons_of_pos _ (by simp [h])]
    rfl
  · rw [if_neg h, List.find?_cons_of_neg _ (by simp [h])]

theorem resGet_mem (acc : List (String × TableSyncResult)) (k : String)
    (r : TableSyncResult) (h : resGet acc k = some r) : (k, r) ∈ acc := by
  unfold resGet at h
  cases hf : acc.find? (fun p => p.1 = k) with
  | none => rw [hf] at h; exact absurd h (by simp)
  | some p =>
    rw [hf] at h
    injection h with h
    have hp := List.mem_of_find?_eq_some hf
    have hk : p.1 = k := by simpa using List.find?_some hf
    have : p = (k, r) := by
      cases p
      simp only [Prod.mk.injEq]
      exact ⟨hk, h⟩
    exact this ▸ hp

theorem syncLoop_trace (env : Env) (cfg : SyncBehaviorConfig) (full : Bool) :
    ∀ (ms : List TableMapping) (acc : List (String × TableSyncResult)) (ok : Bool)
      (trs : List MappingTrace),
      (syncLoop env cfg full ms acc ok trs).2.2 =
        trs ++ (ms.filter (fun m => m.enabled)).map
          (fun m => (processMapping env cfg m full).2) := by
  intro ms
  induction ms with
  | nil => intro acc ok trs; simp [syncLoop]
  | cons m rest ih =>
    intro acc ok trs
    by_cases hm : m.enabled
    · rw [syncLoop, if_pos hm, ih, List.filter_cons_of_pos (by simp [hm]), List.map_cons]
      simp [List.append_assoc]
    · rw [syncLoop, if_neg hm, ih, List.filter_cons_of_neg (by simp [hm])]

theorem syncLoop_success (env : Env) (cfg : SyncBehaviorConfig) (full : Bool) :
    ∀ (ms : List TableMapping) (acc : List (String × TableSyncResult)) (ok : Bool)
      (trs : List MappingTrace),
      (syncLoop env cfg full ms acc ok trs).2.1 =
        (ok && (ms.filter (fun m => m.enabled)).all
          (fun m => (processMapping env cfg m full).1.success)) := by
  intro ms
  induction ms with
  | nil => intro acc ok trs; simp [syncLoop]
  | cons m rest ih =>
    intro acc ok trs
    by_cases hm : m.enabled
    · rw [syncLoop, if_pos hm, ih, List.filter_cons_of_pos (by simp [hm]), List.all_cons,
        Bool.and_assoc]
    · rw [syncLoop, if_neg hm, ih, List.filter_cons_of_neg (by simp [hm])]

theorem syncLoop_tables (env : Env) (cfg : SyncBehaviorConfig) (full : Bool) :
    ∀ (ms : List TableMapping) (acc : List (String × TableSyncResult)) (ok : Bool)
      (trs : List MappingTrace),
      (∀ m ∈ ms, m.enabled = true → ∀ p ∈ acc, p.1 ≠ m.source_table) →
      ((ms.filter (fun m => m.enabled)).map (fun m => m.source_table)).Nodup →
      (syncLoop env cfg full ms acc ok trs).1 =
        acc ++ (ms.filter (fun m => m.enabled)).map
          (fun m => (m.source_table, (processMapping env cfg m full).1)) := by
  intro ms
  induction ms with
  | nil => intro acc ok trs _ _; simp [syncLoop]
  | cons m rest ih =>
    intro acc ok trs hacc hnodup
    by_cases hm : m.enabled
    · rw [syncLoop, if_pos hm]
      rw [List.filter_cons_of_pos (by simp [hm]), List.map_cons] at hnodup ⊢
      have hknew : ∀ p ∈ acc, p.1 ≠ m.source_table :=
        hacc m (List.mem_cons_self m rest) (by simp [hm])
      dsimp only
      rw [resInsert_not_mem acc m.source_table _ hknew]
      rw [ih _ _ _ ?_ (List.Nodup.of_cons hnodup)]
      · simp [List.append_assoc]
      · intro m' hm' hm'en p hp
        rcases List.mem_append.mp hp with h | h
        · exact hacc m' (List.mem_cons_of_mem m hm') hm'en p h
        · have : p = (m.source_table, (processMapping env cfg m full).1) :=
            List.mem_singleton.mp h
          subst this
          have hmem : m'.source_table ∈
              (rest.filter (fun x => x.enabled)).map (fun x => x.source_table) :=
            List.mem_map.mpr ⟨m', List.mem_filter.mpr ⟨hm', by simp [hm'en]⟩, rfl⟩
          intro hEq
          refine (List.nodup_cons.mp hnodup).1 ?_
          rw [show m.source_table = m'.source_table from hEq]
          exact hmem
    · rw [syncLoop, if_neg hm]
      rw [List.filter_cons_of_neg (by simp [hm])] at hnodup ⊢
      exact ih _ _ _ (fun m' hm' => hacc m' (List.mem_cons_of_mem m hm')) hnodup

theorem syncLoop_entries_from_process (env : Env) (cfg : SyncBehaviorConfig) (full : Bool) :
    ∀ (ms : List TableMapping) (acc : List (String × TableSyncResult)) (ok : Bool)
      (trs : List MappingTrace),
      ∀ p ∈ (syncLoop env cfg full ms acc ok trs).1,
        p ∈ acc ∨ ∃ m, p.2 = mkTableSyncResult m (sync_table env cfg m full).1 := by
  intro ms
  induction ms with
  | nil =>
    intro acc ok trs p hp
    exact Or.inl hp
  | cons m rest ih =>
    intro acc ok trs p hp
    by_cases hm : m.enabled
    · rw [syncLoop, if_pos hm] at hp
      rcases ih _ _ _ p hp with h | h
      · rcases resInsert_mem _ _ _ p h with h' | h'
        · exact Or.inl h'
        · subst h'
          exact Or.inr ⟨m, rfl⟩
      · exact Or.inr h
    · rw [syncLoop, if_neg hm] at hp
      exact ih _ _ _ p hp

theorem sync_ok (env : Env) (cfg : SyncConfig) (mode : SyncMode)
    (hpre : cfg.sync.auto_create_tables = false ∨
      (env.ensureSchema = .ok () ∧ env.createAnalytics = .ok ())) :
    sync env cfg mode =
      (.ok
        { success := (syncLoop env cfg.sync mode.isFull cfg.tables [] true []).2.1
          mode := mode.render
          tables := (syncLoop env cfg.sync mode.isFull cfg.tables [] true []).1
          error :=
            if (syncLoop env cfg.sync mode.isFull cfg.tables [] true []).2.1 then none
            else some "Some tables failed to sync" },
        (syncLoop env cfg.sync mode.isFull cfg.tables [] true []).2.2) := by
  rcases hpre with h | ⟨h1, h2⟩
  · simp [sync, h]
  · by_cases hauto : cfg.sync.auto_create_tables
    · simp [sync, hauto, h1, h2]
    · simp [sync, hauto]

theorem syncLoop_get_none (env : Env) (cfg : SyncBehaviorConfig) (full : Bool) :
    ∀ (ms : List TableMapping) (acc : List (String × TableSyncResult)) (ok : Bool)
      (trs : List MappingTrace) (k : String),
      (∀ p ∈ acc, p.1 ≠ k) → (∀ m ∈ ms, m.enabled = true → m.source_table ≠ k) →
      resGet (syncLoop env cfg full ms acc ok trs).1 k = none := by
  intro ms
  induction ms with
  | nil =>
    intro acc ok trs k hacc _
    exact resGet_none acc k hacc
  | cons m rest ih =>
    intro acc ok trs k hacc hms
    by_cases hm : m.enabled
    · rw [syncLoop, if_pos hm]
      refine ih _ _ _ k ?_ (fun m' hm' => hms m' (List.mem_cons_of_mem m hm'))
      intro p hp
      rcases resInsert_mem _ _ _ p hp with h | h
      · exact hacc p h
      · subst h
        exact hms m (List.mem_cons_self m rest) (by simp [hm])
    · rw [syncLoop, if_neg hm]
      exact ih _ _ _ k hacc (fun m' hm' => hms m' (List.mem_cons_of_mem m hm'))

theorem entriesGet (env : Env) (cfg : SyncBehaviorConfig) (full : Bool) :
    ∀ (ms : List TableMapping),
      ((ms.filter (fun m => m.enabled)).map (fun m => m.source_table)).Nodup →
      ∀ m ∈ ms, m.enabled = true →
      resGet ((ms.filter (fun m => m.enabled)).map
          (fun m => (m.source_table, (processMapping env cfg m full).1))) m.source_table =
        some (processMapping env cfg m full).1 := by
  intro ms
  induction ms with
  | nil =>
    intro _ m hm
    exact absurd hm (List.not_mem_nil m)
  | cons m₀ rest ih =>
    intro hnodup m hm hmen
    by_cases h₀ : m₀.enabled
    · rw [List.filter_cons_of_pos (by simp [h₀]), List.map_cons] at hnodup ⊢
      rw [resGet_cons]
      rcases List.mem_cons.mp hm with rfl | hmr
      · rw [if_pos rfl]
      · by_cases hk : m₀.source_table = m.source_table
        · exfalso
          refine (List.nodup_cons.mp hnodup).1 ?_
          rw [hk]
          exact List.mem_map.mpr ⟨m, List.mem_filter.mpr ⟨hmr, by simp [hmen]⟩, rfl⟩
        · rw [if_neg hk]
          exact ih (List.Nodup.of_cons hnodup) m hmr hmen
    · rw [List.filter_cons_of_neg (by simp [h₀])] at hnodup ⊢
      rcases List.mem_cons.mp hm with rfl | hmr
      · exact absurd hmen (by simp [h₀])
      · exact ih hnodup m hmr hmen

/-- The claim C9 as stated: whenever a table appears in the aggregate
result as failed, its recorded entry has zero synced and zero failed
records (and a non-null error), regardless of any chunks the batched
write had already committed before the failure. -/
theorem C9_failed_entry_zero_counts (env : Env) (cfg : SyncConfig) (mode : SyncMode)
    (res : SyncResult) (k : String) (r : TableSyncResult)
    (h1 : (sync env cfg mode).1 = .ok res) (h2 : resGet res.tables k = some r)
    (h3 : r.success = false) :
    r.records_synced = 0 ∧ r.records_failed = 0 ∧ r.error ≠ none := by
  unfold sync at h1
  dsimp only at h1
  split at h1
  · exact absurd h1 (by simp)
  · injection h1 with h1
    have hmem := resGet_mem res.tables k r h2
    rw [← h1] at hmem
    rcases syncLoop_entries_from_process env cfg.sync mode.isFull cfg.tables [] true []
        (k, r) hmem with h | ⟨m, hr⟩
    · exact absurd h (List.not_mem_nil _)
    · cases hst : (sync_table env cfg.sync m mode.isFull).1 with
      | ok p =>
        rw [hst] at hr
        have hr' : r = mkTableSyncResult m (Except.ok p) := hr
        rw [hr'] at h3
        exact absurd h3 (by simp [mkTableSyncResult])
      | error e =>
        rw [hst] at hr
        have hr' : r = mkTableSyncResult m (Except.error e) := hr
        rw [hr']
        simp [mkTableSyncResult]

/-- Witness for C9: in the concrete scenario the first chunk commits, the
second fails, and the recorded entry for the table still shows zero
synced and zero failed records. -/
theorem C9_failed_entry_witness :
    tr9.committedChunks.length = 1 ∧
    (sync env9 cfg9 SyncMode.Incremental).1 = .ok res9 ∧
    resGet res9.tables "t9" = some r9 ∧
    r9.success = false ∧
    (r9.records_synced = 0 ∧ r9.records_failed = 0 ∧ r9.error ≠ none) :=
  ⟨rfl, rfl, rfl, rfl,
    C9_failed_entry_zero_counts env9 cfg9 SyncMode.Incremental res9 "t9" r9 rfl rfl rfl⟩

/-- The claim C7 amended: a disabled mapping contributes no operation to
the run (the trace is exactly the processing of the enabled mappings in
order), and no entry keyed by its source table appears in the result —
provided no enabled mapping shares that source table name (with a shared
name, the enabled mapping contributes an entry under the same key). -/
theorem C7_disabled_mapping_skipped (env : Env) (cfg : SyncConfig) (mode : SyncMode)
    (hpre : cfg.sync.auto_create_tables = false ∨
      (env.ensureSchema = .ok () ∧ env.createAnalytics = .ok ())) :
    (sync env cfg mode).2 =
      (cfg.tables.filter (fun m => m.enabled)).map
        (fun m => (processMapping env cfg.sync m mode.isFull).2) ∧
    (∀ res, (sync env cfg mode).1 = .ok res →
      ∀ m ∈ cfg.tables, m.enabled = false →
        (∀ m' ∈ cfg.tables, m'.enabled = true → m'.source_table ≠ m.source_table) →
        resGet res.tables m.source_table = none) := by
  rw [sync_ok env cfg mode hpre]
  constructor
  · rw [show ((Except.ok _ : Except Error SyncResult), _).2 =
        (syncLoop env cfg.sync mode.isFull cfg.tables [] true []).2.2 from rfl]
    rw [syncLoop_trace]
    simp
  · intro res hres m hm hdis hother
    injection hres with hres
    rw [← hres]
    exact syncLoop_get_none env cfg.sync mode.isFull cfg.tables [] true [] m.source_table
      (fun p hp => absurd hp (List.not_mem_nil p)) hother

/-- Counterexample to C7 as stated: with a disabled and an enabled
mapping sharing the source table name, the result does contain an entry
keyed by the table of the disabled mapping. -/
theorem C7_counterexample_shared_name :
    (cfg7dup.tables.head?.map (fun m => m.enabled) = some false) ∧
    (cfg7dup.tables.head?.map (fun m => m.source_table) = some "t7") ∧
    (sync okEnv cfg7dup SyncMode.Incremental).1 = .ok res7dup ∧
    (resGet res7dup.tables "t7").isSome = true :=
  ⟨rfl, rfl, rfl, rfl⟩

/-- Witness for C7: a run with a disabled mapping whose name no enabled
mapping shares; the trace covers only the enabled mapping and the lookup
under the disabled name is empty. -/
theorem C7_disabled_mapping_witness :
    (sync okEnv cfg7 SyncMode.Incremental).2 =
      (cfg7.tables.filter (fun m => m.enabled)).map
        (fun m => (processMapping okEnv cfg7.sync m SyncMode.Incremental.isFull).2) ∧
    resGet res7.tables "t7a" = none := by
  have h := C7_disabled_mapping_skipped okEnv cfg7 SyncMode.Incremental (Or.inl rfl)
  refine ⟨h.1, ?_⟩
  refine h.2 res7 rfl (mkDisabled "t7a" "u7a") ?_ rfl ?_
  · show mkDisabled "t7a" "u7a" ∈ [mkDisabled "t7a" "u7a", mkMapping "t7b" "u7b" none]
    exact List.mem_cons_self _ _
  · intro m' hm' hen
    have hm'' : m' = mkDisabled "t7a" "u7a" ∨ m' = mkMapping "t7b" "u7b" none := by
      simpa [cfg7] using hm'
    rcases hm'' with rfl | rfl
    · exact absurd hen (by decide)
    · decide

/-- The claim C1 amended: over enabled mappings with pairwise distinct
source table names, a table failure leaves one entry per enabled
mapping, each entry determined by its own processing alone, the failing
entry carrying success false with the rendered error text, overall
success the conjunction of all entries, false as soon as one table
fails — the loop continues past the failure.  (With duplicate source
names the map keyed by source table overwrites entries; see the
counterexample.) -/
theorem C1_failure_isolation (env : Env) (cfg : SyncConfig) (mode : SyncMode)
    (hnodup : ((cfg.tables.filter (fun m => m.enabled)).map
      (fun m => m.source_table)).Nodup)
    (hpre : cfg.sync.auto_create_tables = false ∨
      (env.ensureSchema = .ok () ∧ env.createAnalytics = .ok ())) :
    ∃ res, (sync env cfg mode).1 = .ok res ∧
      res.tables.length = (cfg.tables.filter (fun m => m.enabled)).length ∧
      (∀ m ∈ cfg.tables, m.enabled = true →
        resGet res.tables m.source_table =
          some (processMapping env cfg.sync m mode.isFull).1) ∧
      (∀ m ∈ cfg.tables, m.enabled = true →
        ∀ e, (sync_table env cfg.sync m mode.isFull).1 = .error e →
          resGet res.tables m.source_table =
            some ⟨m.source_table, m.target_table, false, 0, 0, some e.render⟩) ∧
      (res.success = (cfg.tables.filter (fun m => m.enabled)).all
        (fun m => (processMapping env cfg.sync m mode.isFull).1.success)) ∧
      ((∃ m ∈ cfg.tables, m.enabled = true ∧
          exceptIsError (sync_table env cfg.sync m mode.isFull).1 = true) →
        res.success = false) := by
  rw [sync_ok env cfg mode hpre]
  refine ⟨_, rfl, ?_, ?_, ?_, ?_, ?_⟩
  all_goals dsimp only
  case _ =>
    rw [syncLoop_tables env cfg.sync mode.isFull cfg.tables [] true []
      (fun m _ _ p hp => absurd hp (List.not_mem_nil p)) hnodup]
    simp
  case _ =>
    intro m hm hmen
    rw [syncLoop_tables env cfg.sync mode.isFull cfg.tables [] true []
      (fun m _ _ p hp => absurd hp (List.not_mem_nil p)) hnodup]
    simpa using entriesGet env cfg.sync mode.isFull cfg.tables hnodup m hm hmen
  case _ =>
    intro m hm hmen e he
    rw [syncLoop_tables env cfg.sync mode.isFull cfg.tables [] true []
      (fun m _ _ p hp => absurd hp (List.not_mem_nil p)) hnodup]
    have hget := entriesGet env cfg.sync mode.isFull cfg.tables hnodup m hm hmen
    rw [List.nil_append, hget]
    congr 1
    show mkTableSyncResult m (sync_table env cfg.sync m mode.isFull).1 = _
    rw [he]
    rfl
  case _ =>
    show (syncLoop env cfg.sync mode.isFull cfg.tables [] true []).2.1 = _
    rw [syncLoop_success]
    simp
  case _ =>
    rintro ⟨m, hm, hmen, herr⟩
    show (syncLoop env cfg.sync mode.isFull cfg.tables [] true []).2.1 = false
    rw [syncLoop_success]
    simp only [Bool.true_and]
    rw [List.all_eq_false]
    refine ⟨m, List.mem_filter.mpr ⟨hm, by simp [hmen]⟩, ?_⟩
    cases hst : (sync_table env cfg.sync m mode.isFull).1 with
    | ok p =>
      rw [hst] at herr
      exact absurd herr (by simp [exceptIsError])
    | error e =>
      show ¬(mkTableSyncResult m (sync_table env cfg.sync m mode.isFull).1).success = true
      rw [hst]
      simp [mkTableSyncResult]

/-- Witness for C1: three enabled mappings with distinct names, the
second of which fails at fetch; the result keeps three entries, the
outer two successful, the middle one failed, and overall success is
false. -/
theorem C1_failure_isolation_witness :
    ((cfg1.tables.filter (fun m => m.enabled)).map (fun m => m.source_table)).Nodup ∧
    (sync env1 cfg1 SyncMode.Incremental).1 = .ok res1 ∧
    res1.tables.length = 3 ∧
    (resGet res1.tables "a1").map (fun r => r.success) = some true ∧
    (resGet res1.tables "a2").map (fun r => (r.success, r.records_synced)) =
      some (false, 0) ∧
    (resGet res1.tables "a2").map (fun r => r.error) ≠ some none ∧
    (resGet res1.tables "a3").map (fun r => r.success) = some true ∧
    res1.success = false ∧
    res1.tables.length = (cfg1.tables.filter (fun m => m.enabled)).length := by
  obtain ⟨res, h1, hlen, -, -, -, -⟩ :=
    C1_failure_isolation env1 cfg1 SyncMode.Incremental (by decide) (Or.inl rfl)
  have hres : res = res1 := by
    have h2 : (sync env1 cfg1 SyncMode.Incremental).1 = .ok res1 := rfl
    rw [h1] at h2
    injection h2
  rw [hres] at hlen
  exact ⟨by decide, rfl, rfl, rfl, rfl, by decide, rfl, rfl, hlen⟩

/-- Counterexample to C1 as stated: two enabled mappings sharing one
source table name; the first fails but the aggregate result holds a
single entry for that name, recorded as successful with no error — the
per-enabled-mapping entry and the failing-entry clauses of the claim do
not hold without distinct names. -/
theorem C1_counterexample_duplicate_sources :
    (cfgDup.tables.filter (fun m => m.enabled)).length = 2 ∧
    exceptIsError
      (sync_table envDup cfgDup.sync (mkMapping "t" "u" (some "false")) false).1 = true ∧
    (sync envDup cfgDup SyncMode.Incremental).1 = .ok resDup ∧
    resDup.tables.length = 1 ∧
    (resGet resDup.tables "t").map (fun r => r.success) = some true ∧
    (resGet resDup.tables "t").map (fun r => r.error) = some none :=
  ⟨rfl, rfl, rfl, rfl, rfl, rfl⟩

end MdSync
